import Mathlib

/-!
# Verification of the prime95 checkpoint status subsystem

Shallow embedding of the checkpoint decoder (`restoreWorkUnitFromFile`), the
backup-file name classifier (`isTempFileName`), the working-directory scanner
(`restoreStatusMessage`) and the queue status renderer / probability estimator
(`rangeStatusMessage`) from `commona.c`, together with theorems settling the
frozen claims about them.

Modelling conventions:
* A checkpoint file is a stream of typed field values (`FileVal`); a field read
  (`read_long`, `read_double`, `read_slong`, `read_longlong`, `read_header`)
  succeeds exactly when the next value in the stream has the matching type, and
  consumes it.  An absent / unopenable file is `none`.
* C `double` values that the decoder merely stores, and the real-valued
  quantities of the probability estimator, are modelled as `Rat`.
* External collaborators that are not part of this repository's source
  (`gw_as_string`, `ctime`, `_log2`, `work_estimate`, `ERROR_RATE`,
  `PRP_ERROR_RATE`, the `(long long)(1.0/prob)` conversion) are parameters of
  the render environment `REnv`.
* `sprintf`-style decimal output of integers is modelled by `natStr` / `intStr`;
  `%.1f` / `%.2f` of a `Rat` by truncating decimal renderings (their exact
  digits are irrelevant to every claim).
-/

set_option autoImplicit false

namespace Prime95

/-! ## Decimal rendering helpers -/

/-- Decimal digit character for a digit value (already reduced mod 10). -/
def digitChar (d : Nat) : Char :=
  if d = 0 then '0' else if d = 1 then '1' else if d = 2 then '2'
  else if d = 3 then '3' else if d = 4 then '4' else if d = 5 then '5'
  else if d = 6 then '6' else if d = 7 then '7' else if d = 8 then '8' else '9'

/-- Accumulator form of decimal rendering of a natural number; the first
argument is fuel (structural recursion keeps the definition kernel-reducible),
always called with enough of it. -/
def natStrAux : Nat → Nat → List Char → List Char
  | 0, _, acc => acc
  | fuel + 1, n, acc =>
      if n < 10 then digitChar n :: acc
      else natStrAux fuel (n / 10) (digitChar (n % 10) :: acc)

/-- Decimal rendering of a natural number (models `%d`/`%lu`/`%llu` and `%.0f`
of an integral `double`). -/
def natStr (n : Nat) : String := String.mk (natStrAux (n + 1) n [])

/-- Decimal rendering of an integer (models `%d` of a possibly negative int). -/
def intStr (i : Int) : String :=
  if i < 0 then "-" ++ natStr i.natAbs else natStr i.natAbs

/-- Decimal rendering model of `%.1f` (one digit after the point). -/
def fmtF1 (q : Rat) : String :=
  intStr ⌊q⌋ ++ "." ++ natStr (⌊q * 10⌋ - ⌊q⌋ * 10).toNat

/-- Decimal rendering model of `%0.2f` (two digits after the point). -/
def fmtF2 (q : Rat) : String :=
  intStr ⌊q⌋ ++ "." ++ natStr (⌊q * 100⌋ - ⌊q⌋ * 100).toNat

/-- Occurrence of `pat` as a contiguous substring of `s`. -/
def occursIn (pat s : String) : Prop :=
  ∃ pre post, s.data = pre ++ pat.data ++ post

/-- Number of (possibly overlapping) occurrences of `pat` in a character list. -/
def countSubAux (pat : List Char) : List Char → Nat
  | [] => 0
  | c :: rest => (if pat.isPrefixOf (c :: rest) then 1 else 0) + countSubAux pat rest

/-- Number of occurrences of the pattern `pat` in the string `s`. -/
def countSubstr (s pat : String) : Nat := countSubAux pat.data s.data

/-! ## Data model of the decoder -/

/-- The `work_type` constants of `common.h` that `commona.c` uses. -/
inductive WorkType
  | WORK_NONE
  | WORK_ECM
  | WORK_PMINUS1
  | WORK_TEST
  | WORK_DBLCHK
  | WORK_PRP
  | WORK_FACTOR
  | WORK_PFACTOR
  | WORK_ADVANCEDTEST
  deriving DecidableEq, Repr

/-- The fields of `struct work_unit` that `restoreWorkUnitFromFile` and
`restoreStatusMessage` touch. -/
structure WorkUnit where
  work_type : WorkType := WorkType.WORK_NONE
  k : Rat := 0
  b : Nat := 0
  n : Nat := 0
  c : Int := 0
  curves_to_do : Int := 0
  curve : Rat := 0
  pct_complete : Rat := 0
  deriving DecidableEq, Repr

/-- The fields of `pm1handle` that `restoreWorkUnitFromFile` and
`restoreStatusMessage` touch. -/
structure Pm1Handle where
  stage : Nat := 0
  B : Nat := 0
  B_done : Nat := 0
  C_done : Nat := 0
  C_start : Nat := 0
  C : Nat := 0
  pairs_done : Nat := 0
  D : Nat := 0
  E : Nat := 0
  deriving DecidableEq, Repr

/-- One typed field value stored in a checkpoint file. -/
inductive FileVal
  | vLong (v : Nat)
  | vSLong (v : Int)
  | vDouble (v : Rat)
  | vLongLong (v : Nat)
  | vHeader
  deriving DecidableEq, Repr

/-- A single field-read instruction: which `read_*` call is made and where the
value is stored (in-place, through the `w`/`pm1` pointers). -/
inductive RInstr
  | rLong (upd : Nat → WorkUnit → Pm1Handle → WorkUnit × Pm1Handle)
  | rSLong (upd : Int → WorkUnit → Pm1Handle → WorkUnit × Pm1Handle)
  | rDouble (upd : Rat → WorkUnit → Pm1Handle → WorkUnit × Pm1Handle)
  | rLongLong (upd : Nat → WorkUnit → Pm1Handle → WorkUnit × Pm1Handle)
  | rHeader

/-- Run a sequence of field reads against the stream.  Each successful read
stores its value immediately (the C code reads straight into `*w` / `*pm1`);
the first failing read aborts, leaving all earlier stores in place. -/
def runReads : List RInstr → List FileVal → WorkUnit → Pm1Handle →
    Bool × List FileVal × WorkUnit × Pm1Handle
  | [], fs, w, pm1 => (true, fs, w, pm1)
  | RInstr.rLong upd :: plan, FileVal.vLong v :: fs, w, pm1 =>
      let s := upd v w pm1
      runReads plan fs s.1 s.2
  | RInstr.rSLong upd :: plan, FileVal.vSLong v :: fs, w, pm1 =>
      let s := upd v w pm1
      runReads plan fs s.1 s.2
  | RInstr.rDouble upd :: plan, FileVal.vDouble v :: fs, w, pm1 =>
      let s := upd v w pm1
      runReads plan fs s.1 s.2
  | RInstr.rLongLong upd :: plan, FileVal.vLongLong v :: fs, w, pm1 =>
      let s := upd v w pm1
      runReads plan fs s.1 s.2
  | RInstr.rHeader :: plan, FileVal.vHeader :: fs, w, pm1 => runReads plan fs w pm1
  | _ :: _, fs, w, pm1 => (false, fs, w, pm1)

/-- Pure type check: does the stream begin with values matching the plan? -/
def planMatches : List RInstr → List FileVal → Bool
  | [], _ => true
  | RInstr.rLong _ :: plan, FileVal.vLong _ :: fs => planMatches plan fs
  | RInstr.rSLong _ :: plan, FileVal.vSLong _ :: fs => planMatches plan fs
  | RInstr.rDouble _ :: plan, FileVal.vDouble _ :: fs => planMatches plan fs
  | RInstr.rLongLong _ :: plan, FileVal.vLongLong _ :: fs => planMatches plan fs
  | RInstr.rHeader :: plan, FileVal.vHeader :: fs => planMatches plan fs
  | _ :: _, _ => false

/-- Cast of an `unsigned long` value to `int` (`w->curves_to_do = (int) tmp`). -/
def toInt32 (v : Nat) : Int :=
  if v % 2 ^ 32 < 2 ^ 31 then ((v % 2 ^ 32 : Nat) : Int)
  else ((v % 2 ^ 32 : Nat) : Int) - 2 ^ 32

/-- The common header reads after magicnum and version:
`k (double), b (long), n (long), c (slong)`, then `read_header`. -/
def commonPlan : List RInstr :=
  [ RInstr.rDouble (fun v w pm1 => ({ w with k := v }, pm1)),
    RInstr.rLong (fun v w pm1 => ({ w with b := v }, pm1)),
    RInstr.rLong (fun v w pm1 => ({ w with n := v }, pm1)),
    RInstr.rSLong (fun v w pm1 => ({ w with c := v }, pm1)),
    RInstr.rHeader ]

/-- ECM variant reads: stage, curves_to_do (cast to int), sigma, B, B_done,
C_done. -/
def ecmPlan : List RInstr :=
  [ RInstr.rLong (fun v w pm1 => (w, { pm1 with stage := v })),
    RInstr.rLong (fun v w pm1 => ({ w with curves_to_do := toInt32 v }, pm1)),
    RInstr.rDouble (fun v w pm1 => ({ w with curve := v }, pm1)),
    RInstr.rLongLong (fun v w pm1 => (w, { pm1 with B := v })),
    RInstr.rLongLong (fun v w pm1 => (w, { pm1 with B_done := v })),
    RInstr.rLongLong (fun v w pm1 => (w, { pm1 with C_done := v })) ]

/-- P-1 variant reads: stage, B_done, B, C_done, C_start, C, pairs_done, D, E. -/
def pm1Plan : List RInstr :=
  [ RInstr.rLong (fun v w pm1 => (w, { pm1 with stage := v })),
    RInstr.rLongLong (fun v w pm1 => (w, { pm1 with B_done := v })),
    RInstr.rLongLong (fun v w pm1 => (w, { pm1 with B := v })),
    RInstr.rLongLong (fun v w pm1 => (w, { pm1 with C_done := v })),
    RInstr.rLongLong (fun v w pm1 => (w, { pm1 with C_start := v })),
    RInstr.rLongLong (fun v w pm1 => (w, { pm1 with C := v })),
    RInstr.rLongLong (fun v w pm1 => (w, { pm1 with pairs_done := v })),
    RInstr.rLong (fun v w pm1 => (w, { pm1 with D := v })),
    RInstr.rLong (fun v w pm1 => (w, { pm1 with E := v })) ]

/-- LL variant reads: error_count (into pm1.E), iteration count (into pm1.C). -/
def llPlan : List RInstr :=
  [ RInstr.rLong (fun v w pm1 => (w, { pm1 with E := v })),
    RInstr.rLong (fun v w pm1 => (w, { pm1 with C := v })) ]

/-- PRP variant reads: error_count (into pm1.E), iteration count (into pm1.C). -/
def prpPlan : List RInstr :=
  [ RInstr.rLong (fun v w pm1 => (w, { pm1 with E := v })),
    RInstr.rLong (fun v w pm1 => (w, { pm1 with C := v })) ]

/-- Trial-factoring variant: nothing further is read (TODO in the source). -/
def factorPlan : List RInstr := []

def ECM_MAGICNUM : Nat := 0x1725bcd9
def PM1_MAGICNUM : Nat := 0x317a394b
def LL_MAGICNUM : Nat := 0x2c7330a8
def PRP_MAGICNUM : Nat := 0x87f2a91b
def FACTOR_MAGICNUM : Nat := 0x1567234D

/-- The `switch (file_magicnum)` dispatch: for each recognized magic number,
the work type it sets, the single version value it requires, and the variant
field sequence it then reads. -/
def magicInfo (m : Nat) : Option (WorkType × Nat × List RInstr) :=
  if m = ECM_MAGICNUM then some (WorkType.WORK_ECM, 1, ecmPlan)
  else if m = PM1_MAGICNUM then some (WorkType.WORK_PMINUS1, 2, pm1Plan)
  else if m = LL_MAGICNUM then some (WorkType.WORK_TEST, 1, llPlan)
  else if m = PRP_MAGICNUM then some (WorkType.WORK_PRP, 4, prpPlan)
  else if m = FACTOR_MAGICNUM then some (WorkType.WORK_FACTOR, 1, factorPlan)
  else none

/-- Required version constant for a magic number, when recognized. -/
def requiredVersion (m : Nat) : Option Nat := (magicInfo m).map fun info => info.2.1

/-- The work-type-specific part of `restoreWorkUnitFromFile`, entered after
magicnum, version and the common header have been read successfully. -/
def restoreDispatch (file_magicnum version : Nat) (fs : List FileVal)
    (w : WorkUnit) (pm1 : Pm1Handle) : Bool × WorkUnit × Pm1Handle :=
  match magicInfo file_magicnum with
  | none => (false, w, pm1)
  | some info =>
      if version ≠ info.2.1 then (false, w, pm1)
      else
        let w1 := { w with work_type := info.1 }
        let r := runReads info.2.2 fs w1 pm1
        (r.1, r.2.2.1, r.2.2.2)

/-- `restoreWorkUnitFromFile` of `commona.c`: sets `w->work_type = WORK_NONE`,
reads magicnum, version, the common header fields and `read_header`, then
dispatches on the magic number.  `none` models a file that cannot be opened.
Every failure path returns `FALSE` with whatever stores already happened left
in place (the C code reads directly into `*w` and `*pm1`). -/
def restoreWorkUnitFromFile (file : Option (List FileVal)) (w0 : WorkUnit)
    (pm10 : Pm1Handle) : Bool × WorkUnit × Pm1Handle :=
  let w : WorkUnit := { w0 with work_type := WorkType.WORK_NONE }
  match file with
  | none => (false, w, pm10)
  | some (FileVal.vLong file_magicnum :: FileVal.vLong version :: fs) =>
      let r := runReads commonPlan fs w pm10
      if r.1 = false then (false, r.2.2.1, r.2.2.2)
      else restoreDispatch file_magicnum version r.2.1 r.2.2.1 r.2.2.2
  | some _ => (false, w, pm10)

/-- A stream that carries every field the decoder requires: magicnum and
version values, common header values of the right types, the recognized
version for the magic, and a complete variant field sequence. -/
def completeFileB : List FileVal → Bool
  | FileVal.vLong m :: FileVal.vLong v :: rest =>
      planMatches commonPlan rest &&
      (match magicInfo m with
       | some info => (v == info.2.1) && planMatches info.2.2 (rest.drop commonPlan.length)
       | none => false)
  | _ => false

/-! ## The filename classifier `isTempFileName` -/

/-- The scanning loop of `isTempFileName` over the characters after the type
tag: `i` is the current index in the whole name, `u` the number of underscores
seen so far.  Mirrors the C loop: underscore capped at two, a dot at index `> 1`
breaks to the suffix check, a non-digit rejects, end of string accepts. -/
def scanTail (su : List Char) : List Char → Nat → Nat → Bool
  | [], _, _ => true
  | c :: cs, i, u =>
      if c = '_' then
        if u + 1 > 2 then false else scanTail su cs (i + 1) (u + 1)
      else if c = '.' ∧ 1 < i then decide (c :: cs = su)
      else if c < '0' ∨ '9' < c then false
      else scanTail su cs (i + 1) u

/-- `isTempFileName` of `commona.c`.  Note: the suffix test is
`strcmp(filename + i, ".bu") == 0`, i.e. the remainder must be *exactly*
`".bu"`; the digit loop after it is dead code (modelled by comparing the
remainder with `['.', 'b', 'u']`). -/
def isTempFileName (filename : String) : Bool :=
  if filename.length ≤ 4 then false
  else
    match filename.data with
    | [] => false
    | t :: rest =>
        if t = 'm' ∨ t = 'p' ∨ t = 'e' ∨ t = 'f' then
          scanTail ['.', 'b', 'u'] rest 1 0
        else false

/-! ## The scanner `restoreStatusMessage` -/

/-- A directory entry as returned by `readdir`: its name and whether
`d_type == DT_REG`. -/
structure DirEnt where
  d_name : String
  regular : Bool
  deriving DecidableEq, Repr

def MAX_BACKUP_FILES : Nat := 100

/-- The collection condition of the scanner loop:
`dp->d_type == DT_REG && strlen(dp->d_name) < 100 && isTempFileName(dp->d_name)`. -/
def goodEntry (e : DirEnt) : Bool :=
  e.regular && decide (e.d_name.length < 100) && isTempFileName e.d_name

/-- The `readdir` loop: walk the listing in discovery order, collect the names
passing `goodEntry`, and stop as soon as `room` names have been collected
(`if (status_files == MAX_BACKUP_FILES) break`). -/
def collectFiles : List DirEnt → Nat → List String
  | [], _ => []
  | _ :: _, 0 => []
  | e :: rest, Nat.succ room =>
      if goodEntry e then e.d_name :: collectFiles rest room
      else collectFiles rest (Nat.succ room)

def BACKUP_PARSE_ERROR (name : String) : String :=
  "Unable to parse (" ++ name ++ ").\n"

/-- `%-16s`: left-justified, blank-padded to a minimal width of 16. -/
def padName (name : String) : String :=
  name ++ String.mk (List.replicate (16 - name.length) ' ')

def BACKUP_STATUS (name status : String) : String :=
  "Backup " ++ padName name ++ " | " ++ status ++ ".\n"

/-- The per-kind status text built by the `switch (w.work_type)` of
`restoreStatusMessage`, with the final `UNKNOWN` fallback for an empty
result. -/
def statusOf (w : WorkUnit) (pm1 : Pm1Handle) : String :=
  let status : String :=
    match w.work_type with
    | WorkType.WORK_ECM =>
        "ECM | Curve " ++ intStr w.curves_to_do ++ " | Stage " ++
          natStr (pm1.stage + 1) ++ " (" ++ fmtF1 (100 * w.pct_complete) ++ "%)"
    | WorkType.WORK_PMINUS1 =>
        if pm1.stage = 3 then
          "P-1 | Stage 1 (" ++ fmtF1 (100 * w.pct_complete) ++ "%) B1 <" ++
            natStr pm1.pairs_done
        else if pm1.stage = 0 then
          "P-1 | Stage 1 (" ++ fmtF1 (100 * w.pct_complete) ++ "%) B1 @ " ++
            natStr pm1.pairs_done
        else if pm1.stage = 1 then
          "P-1 | B1=" ++ natStr pm1.B ++ " complete, Stage 2 (" ++
            fmtF1 (100 * w.pct_complete) ++ "%)"
        else if pm1.stage = 2 then
          "P-1 | B1=" ++ natStr pm1.B ++
            (if pm1.B < pm1.C then
               ",B2=" ++ natStr pm1.C ++
                 (if 2 ≤ pm1.E then ",E=" ++ natStr pm1.E else "")
             else "") ++ " complete"
        else ""
    | WorkType.WORK_TEST =>
        "LL  | Iteration " ++ natStr pm1.C ++ "/" ++ natStr w.n ++ " [" ++
          fmtF2 (100 * w.pct_complete) ++ "%]"
    | WorkType.WORK_PRP =>
        "PRP | Iteration " ++ natStr pm1.C ++ "/" ++ natStr w.n ++ " [" ++
          fmtF2 (100 * w.pct_complete) ++ "%]"
    | _ => ""
  if status = "" then "UNKNOWN" else status

/-- The text the scanner emits for one candidate file, with explicit initial
contents of the stack records the decode writes into. -/
def fileOutcomeWith (file : Option (List FileVal)) (name : String)
    (w0 : WorkUnit) (pm10 : Pm1Handle) : String :=
  let r := restoreWorkUnitFromFile file w0 pm10
  if r.1 = false then BACKUP_PARSE_ERROR name
  else BACKUP_STATUS name (statusOf r.2.1 r.2.2)

/-- The text the scanner emits for one candidate file (fresh records). -/
def fileOutcome (fsys : String → Option (List FileVal)) (name : String) : String :=
  fileOutcomeWith (fsys name) name {} {}

/-- The per-candidate emitted lines of `restoreStatusMessage`: collect at most
`MAX_BACKUP_FILES` names passing `goodEntry` in discovery order, sort them
with `qsort`/`cmpFileName` (lexicographic `strcmp`), and render one outcome per
candidate in sorted order.  (The `cwd` banner preceding the loop is not
modelled; `fsys` gives each file's stream.) -/
def restoreStatusMessage (fsys : String → Option (List FileVal))
    (listing : List DirEnt) : List String :=
  let names := collectFiles listing MAX_BACKUP_FILES
  let sorted := List.insertionSort (fun a b : String => a ≤ b) names
  sorted.map (fileOutcome fsys)

/-! ## The renderer / estimator `rangeStatusMessage` -/

/-- The fields of a `struct work_unit` from the live work-to-do queue that
`rangeStatusMessage` reads. -/
structure QUnit where
  work_type : WorkType := WorkType.WORK_NONE
  k : Rat := 1
  b : Nat := 2
  n : Nat := 0
  c : Int := -1
  known_factors : Bool := false
  sieve_depth : Nat := 0
  pminus1ed : Bool := false
  prp_dblchk : Bool := false
  curves_to_do : Int := 0
  B1 : Nat := 0
  factor_to : Nat := 0
  deriving DecidableEq, Repr

/-- Environment of `rangeStatusMessage`: the per-worker work-to-do lines and
the external collaborators (`IniGetInt`, `time`/`ctime`, `gw_as_string`,
`_log2`, `work_estimate`, the error-rate constants, and the float conversion
`(long long)(1.0/prob)`). -/
structure REnv where
  units : List (List QUnit)
  statusLines : Option Nat := none
  now : Int := 0
  ctime : Int → String := fun _ => ""
  gwString : QUnit → String := fun _ => ""
  log2 : Rat → Rat := fun _ => 0
  errorRate : Rat := 0
  prpErrorRate : Rat := 0
  workEstimate : Nat → QUnit → Int := fun _ _ => 0
  invProbLL : Rat → String := fun _ => ""

def STAT0 : String :=
  "Below is a report on the work you have queued and any expected completion dates.\n"

def STAT3 : String := "No work queued up.\n"

/-- Global accumulators of `rangeStatusMessage`: the output written so far and
`ll_and_prp_cnt`, `prob`, `mersennes`. -/
structure GAcc where
  out : String
  cnt : Nat
  prob : Rat
  mers : Bool
  deriving DecidableEq, Repr

/-- Per-worker state on top of the global accumulators: `lines_output`,
`truncated_status_msg` and `est`. -/
structure WAcc where
  g : GAcc
  linesOut : Nat
  trunc : Bool
  est : Int
  deriving DecidableEq, Repr

/-- The Mersenne-form test of line 99: `k = 1.0 && b = 2 && c = -1` and no
known factors. -/
def mersForm (u : QUnit) : Bool :=
  u.k == 1 && u.b == 2 && u.c == -1 && !u.known_factors

/-- The unsigned value of `buflen - 200` in the capacity check
`(unsigned int)(buf - orig_buf) >= buflen - 200`. -/
def capLimit (buflen : Nat) : Nat := (buflen + 2 ^ 32 - 200) % 2 ^ 32

/-- `lines_per_worker`: `IniGetInt(INI_FILE, "StatusLines", buflen/62)` divided
by the worker count, floored at 3. -/
def linesPerWorker (env : REnv) (buflen : Nat) : Nat :=
  max 3 (env.statusLines.getD (buflen / 62) / env.units.length)

/-- One per-item probability term
`(bits-1) * 1.733 * factor * (pminus1ed ? 1.04 : 1.0) / (log2(k) + log2(b) * n)`. -/
def probTerm (env : REnv) (u : QUnit) (factor : Rat) : Rat :=
  let bits : Nat := max u.sieve_depth 32
  ((bits - 1 : Nat) : Rat) * (1733 / 1000) * factor *
      (if u.pminus1ed then 26 / 25 else 1) /
    (env.log2 u.k + env.log2 (u.b : Rat) * (u.n : Rat))

/-- Drop characters 16-18 of a `ctime` result
(`safe_strcpy (timebuf+16, timebuf+19)`). -/
def trimCtime (s : String) : String := String.mk (s.data.take 16 ++ s.data.drop 19)

/-- The `", %s"` time estimate at the end of a work line: a trimmed `ctime` of
`now + (long) est`, or the fixed post-2038 sentinel.  (Estimates are modelled
as integral seconds, making the `(long) est` cast the identity.) -/
def timeField (env : REnv) (est : Int) : String :=
  if est + env.now < 2147483640 then trimCtime (env.ctime (env.now + est))
  else "after Jan 19 2038\n"

/-- The work-kind description of lines 150-165. -/
def kindDesc (u : QUnit) : String :=
  if u.work_type = WorkType.WORK_ECM then
    "ECM " ++ intStr u.curves_to_do ++ " curve" ++
      (if u.curves_to_do = 1 then "" else "s") ++ " B1=" ++ natStr u.B1
  else if u.work_type = WorkType.WORK_PMINUS1 then "P-1 B1=" ++ natStr u.B1
  else if u.work_type = WorkType.WORK_FACTOR then
    "factor from 2^" ++ natStr u.sieve_depth ++ " to 2^" ++ natStr u.factor_to
  else if u.work_type = WorkType.WORK_PFACTOR then "P-1"
  else if u.work_type = WorkType.WORK_TEST ∨
          u.work_type = WorkType.WORK_ADVANCEDTEST then "Lucas-Lehmer test"
  else if u.work_type = WorkType.WORK_DBLCHK then "Double-check"
  else "PRP"

/-- The body of the work-unit loop of `rangeStatusMessage` for one queue item:
skip `WORK_NONE`; update `mersennes`, `ll_and_prp_cnt`, `prob`, `est`; then
either emit the truncation marker (once per worker), skip silently, or emit
the work line. -/
def processUnit (env : REnv) (buflen lpw tnum : Nat) (wa : WAcc) (u : QUnit) :
    WAcc :=
  if u.work_type = WorkType.WORK_NONE then wa
  else
    let mers := wa.g.mers && mersForm u
    let cp : Nat × Rat :=
      if u.work_type = WorkType.WORK_TEST then
        (wa.g.cnt + 1, wa.g.prob + probTerm env u 1)
      else if u.work_type = WorkType.WORK_DBLCHK then
        (wa.g.cnt + 1, wa.g.prob + probTerm env u env.errorRate)
      else if u.work_type = WorkType.WORK_PRP then
        (wa.g.cnt + 1,
         wa.g.prob + probTerm env u (if u.prp_dblchk then env.prpErrorRate else 1))
      else (wa.g.cnt, wa.g.prob)
    let est := wa.est + env.workEstimate tnum u
    if capLimit buflen ≤ wa.g.out.length ∨ lpw - 1 ≤ wa.linesOut then
      if wa.trunc then
        { wa with g := { wa.g with cnt := cp.1, prob := cp.2, mers := mers },
                  est := est }
      else
        { wa with
            g := { wa.g with out := wa.g.out ++ "More...\n", cnt := cp.1,
                             prob := cp.2, mers := mers },
            trunc := true, est := est }
    else
      let line :=
        env.gwString u ++
          (if u.work_type = WorkType.WORK_PRP ∧ u.known_factors then
             "/known_factors" else "") ++
          ", " ++ kindDesc u ++ ", " ++ timeField env est
      { wa with
          g := { wa.g with out := wa.g.out ++ line, cnt := cp.1, prob := cp.2,
                           mers := mers },
          linesOut := wa.linesOut + 1, est := est }

/-- The work-unit loop for one worker. -/
def workerLoop (env : REnv) (buflen lpw tnum : Nat) (wa : WAcc)
    (us : List QUnit) : WAcc :=
  us.foldl (processUnit env buflen lpw tnum) wa

/-- Per-worker initial state: the worker header (emitted when more than one
worker exists and counted as an output line), a cleared truncation flag and a
zero estimate. -/
def workerInit (env : REnv) (tnum : Nat) (g : GAcc) : WAcc :=
  let multi := 1 < env.units.length
  let g1 : GAcc :=
    if multi then
      { g with out := g.out ++ "[Worker thread #" ++ natStr (tnum + 1) ++ "]\n" }
    else g
  { g := g1, linesOut := if multi then 1 else 0, trunc := false, est := 0 }

/-- One iteration of the worker loop: optional worker header, the work-unit
loop, then `STAT3` when the worker's estimate is zero and its output was not
truncated. -/
def runWorker (env : REnv) (buflen lpw tnum : Nat) (g : GAcc)
    (us : List QUnit) : GAcc :=
  let wa := workerLoop env buflen lpw tnum (workerInit env tnum g) us
  if wa.est = 0 ∧ wa.trunc = false then { wa.g with out := wa.g.out ++ STAT3 }
  else wa.g

/-- `STAT0` plus the worker loops: everything `rangeStatusMessage` produces
before the probability sentence, together with the final accumulators. -/
def rangeAccum (env : REnv) (buflen : Nat) : GAcc :=
  let lpw := linesPerWorker env buflen
  let g0 : GAcc := { out := STAT0, cnt := 0, prob := 0, mers := true }
  (env.units.enum).foldl
    (fun g p => runWorker env buflen lpw p.1 g p.2) g0

/-- The probability sentence appended at lines 190-193: `STAT1a` when exactly
one exponent qualified, `STAT1` when more than one, nothing otherwise. -/
def probSentence (env : REnv) (cnt : Nat) (mers : Bool) (prob : Rat) : String :=
  let pfx := if mers then "Mersenne " else ""
  if cnt = 1 then
    "The chance that the exponent you are testing will yield a " ++ pfx ++
      "prime is about 1 in " ++ env.invProbLL prob ++ ". "
  else if 1 < cnt then
    "The chance that one of the " ++ natStr cnt ++
      " exponents you are testing will yield a " ++ pfx ++
      "prime is about 1 in " ++ env.invProbLL prob ++ ". "
  else ""

/-- `rangeStatusMessage` of `commona.c` as the full text written into `buf`. -/
def rangeStatusMessage (env : REnv) (buflen : Nat) : String :=
  let g := rangeAccum env buflen
  g.out ++ probSentence env g.cnt g.mers g.prob

/-! ## Helper lemmas -/

theorem strData_append (s t : String) : (s ++ t).data = s.data ++ t.data := by
  cases s; cases t; rfl

theorem digitChar_ne_comma (d : Nat) : digitChar d ≠ ',' := by
  unfold digitChar; split_ifs <;> decide

theorem digitChar_ne_upperE (d : Nat) : digitChar d ≠ 'E' := by
  unfold digitChar; split_ifs <;> decide

theorem natStrAux_mem :
    ∀ (fuel n : Nat) (acc : List Char) (c : Char), c ∈ natStrAux fuel n acc →
      (∃ d, c = digitChar d) ∨ c ∈ acc := by
  intro fuel
  induction fuel with
  | zero => intro n acc c hc; exact Or.inr hc
  | succ fuel ih =>
    intro n acc c hc
    unfold natStrAux at hc
    split_ifs at hc with h
    · rcases List.mem_cons.mp hc with h1 | h1
      · exact Or.inl ⟨n, h1⟩
      · exact Or.inr h1
    · rcases ih (n / 10) _ c hc with h1 | h1
      · exact Or.inl h1
      · rcases List.mem_cons.mp h1 with h2 | h2
        · exact Or.inl ⟨n % 10, h2⟩
        · exact Or.inr h2

theorem natStr_mem (n : Nat) (c : Char) (hc : c ∈ (natStr n).data) :
    ∃ d, c = digitChar d := by
  rcases natStrAux_mem (n + 1) n [] c hc with h | h
  · exact h
  · cases h

theorem runReads_fst (plan : List RInstr) :
    ∀ (fs : List FileVal) (w : WorkUnit) (pm1 : Pm1Handle),
      (runReads plan fs w pm1).1 = planMatches plan fs := by
  induction plan with
  | nil => intro fs w pm1; rfl
  | cons i plan ih =>
    intro fs w pm1
    cases i <;> rcases fs with _ | ⟨f, fs⟩ <;> try rfl
    all_goals cases f <;> simp [runReads, planMatches, ih]

theorem runReads_leftover (plan : List RInstr) :
    ∀ (fs : List FileVal) (w : WorkUnit) (pm1 : Pm1Handle),
      planMatches plan fs = true →
      (runReads plan fs w pm1).2.1 = List.drop plan.length fs := by
  induction plan with
  | nil => intro fs w pm1 _; rfl
  | cons i plan ih =>
    intro fs w pm1 h
    rcases fs with _ | ⟨f, fs⟩
    · cases i <;> simp [planMatches] at h
    · cases i <;> cases f <;> simp [planMatches] at h <;>
        simpa [runReads, List.drop_succ_cons] using ih fs _ _ h

/-- The reads of a plan never touch `work_type`. -/
def keepsWT : RInstr → Prop
  | RInstr.rLong upd => ∀ v w pm1, ((upd v w pm1).1).work_type = w.work_type
  | RInstr.rSLong upd => ∀ v w pm1, ((upd v w pm1).1).work_type = w.work_type
  | RInstr.rDouble upd => ∀ v w pm1, ((upd v w pm1).1).work_type = w.work_type
  | RInstr.rLongLong upd => ∀ v w pm1, ((upd v w pm1).1).work_type = w.work_type
  | RInstr.rHeader => True

theorem runReads_work_type (plan : List RInstr) (h : ∀ i ∈ plan, keepsWT i) :
    ∀ (fs : List FileVal) (w : WorkUnit) (pm1 : Pm1Handle),
      ((runReads plan fs w pm1).2.2.1).work_type = w.work_type := by
  induction plan with
  | nil => intro fs w pm1; rfl
  | cons i plan ih =>
    have hi := h i (List.mem_cons_self i plan)
    have hrest : ∀ j ∈ plan, keepsWT j := fun j hj => h j (List.mem_cons_of_mem i hj)
    intro fs w pm1
    cases i <;> rcases fs with _ | ⟨f, fs⟩ <;> try rfl
    all_goals
      cases f <;>
        first
          | rfl
          | (simp only [runReads]; rw [ih hrest]; exact hi _ _ _)
          | (simp only [runReads]; exact ih hrest _ _ _)

theorem commonPlan_keepsWT : ∀ i ∈ commonPlan, keepsWT i := by
  intro i hi
  fin_cases hi <;> first | trivial | exact fun v w pm1 => rfl

theorem ecmPlan_keepsWT : ∀ i ∈ ecmPlan, keepsWT i := by
  intro i hi
  fin_cases hi <;> first | trivial | exact fun v w pm1 => rfl

theorem pm1Plan_keepsWT : ∀ i ∈ pm1Plan, keepsWT i := by
  intro i hi
  fin_cases hi <;> first | trivial | exact fun v w pm1 => rfl

theorem llPlan_keepsWT : ∀ i ∈ llPlan, keepsWT i := by
  intro i hi
  fin_cases hi <;> first | trivial | exact fun v w pm1 => rfl

theorem prpPlan_keepsWT : ∀ i ∈ prpPlan, keepsWT i := by
  intro i hi
  fin_cases hi <;> first | trivial | exact fun v w pm1 => rfl

theorem factorPlan_keepsWT : ∀ i ∈ factorPlan, keepsWT i := by
  intro i hi
  cases hi

theorem magicInfo_plan_keepsWT (m : Nat) (info : WorkType × Nat × List RInstr)
    (h : magicInfo m = some info) : ∀ i ∈ info.2.2, keepsWT i := by
  unfold magicInfo at h
  split_ifs at h <;> cases h <;>
    first
      | exact ecmPlan_keepsWT
      | exact pm1Plan_keepsWT
      | exact llPlan_keepsWT
      | exact prpPlan_keepsWT
      | exact factorPlan_keepsWT

theorem restore_fst_eq (fs : List FileVal) (w0 : WorkUnit) (pm10 : Pm1Handle) :
    (restoreWorkUnitFromFile (some fs) w0 pm10).1 = completeFileB fs := by
  rcases fs with _ | ⟨f1, fs⟩
  · rfl
  cases f1 <;> try rfl
  case vLong m =>
    rcases fs with _ | ⟨f2, fs⟩
    · rfl
    cases f2 <;> try rfl
    case vLong v =>
      simp only [restoreWorkUnitFromFile, completeFileB]
      by_cases hp : planMatches commonPlan fs = true
      · unfold restoreDispatch
        rcases hm : magicInfo m with _ | info
        · simp [runReads_fst, hp]
        · by_cases hv : v = info.2.1
          · simp [runReads_fst, hp, hv, runReads_leftover commonPlan]
          · simp [runReads_fst, hp, hv]
      · have hp2 : planMatches commonPlan fs = false := by
          rwa [Bool.not_eq_true] at hp
        simp [runReads_fst, hp2]

/-- Any decode success presupposes that the stream carried the complete field
sequence (magic, version, typed common header, matching version, full variant
sequence): the all-or-nothing direction of the decoder. -/
theorem restore_success_complete (fs : List FileVal) (w0 : WorkUnit)
    (pm10 : Pm1Handle)
    (h : (restoreWorkUnitFromFile (some fs) w0 pm10).1 = true) :
    completeFileB fs = true := by
  rw [restore_fst_eq] at h
  exact h

/-- Work kind selected by a magic number, when recognized. -/
def magicKind (m : Nat) : Option WorkType := (magicInfo m).map fun info => info.1

theorem magicKind_cases (m : Nat) (wt : WorkType) (h : magicKind m = some wt) :
    (wt = WorkType.WORK_ECM ∨ wt = WorkType.WORK_PMINUS1 ∨ wt = WorkType.WORK_TEST ∨
        wt = WorkType.WORK_PRP ∨ wt = WorkType.WORK_FACTOR) ∧
      wt ≠ WorkType.WORK_NONE := by
  unfold magicKind magicInfo at h
  split_ifs at h <;> simp at h <;> subst h <;> decide

theorem restore_success_kind (fs : List FileVal) (w0 : WorkUnit)
    (pm10 : Pm1Handle)
    (h : (restoreWorkUnitFromFile (some fs) w0 pm10).1 = true) :
    ∃ m v rest, fs = FileVal.vLong m :: FileVal.vLong v :: rest ∧
      magicKind m = some ((restoreWorkUnitFromFile (some fs) w0 pm10).2.1).work_type := by
  rcases fs with _ | ⟨f1, fs⟩
  · simp [restoreWorkUnitFromFile] at h
  cases f1 <;> try simp [restoreWorkUnitFromFile] at h
  case vLong m =>
    rcases fs with _ | ⟨f2, fs⟩
    · simp [restoreWorkUnitFromFile] at h
    cases f2 <;> try simp [restoreWorkUnitFromFile] at h
    case vLong v =>
      refine ⟨m, v, fs, rfl, ?_⟩
      simp only [restoreWorkUnitFromFile] at h ⊢
      by_cases hp : planMatches commonPlan fs = true
      · simp only [runReads_fst, hp] at h ⊢
        rw [if_neg (by decide : ¬(true = false))] at h ⊢
        unfold restoreDispatch at h ⊢
        rcases hm : magicInfo m with _ | info
        · try simp only [hm] at h
          simp at h
        · try simp only [hm] at h ⊢
          try dsimp only at h ⊢
          by_cases hv : v = info.2.1
          · rw [if_neg (by simp [hv])] at h ⊢
            rw [runReads_work_type info.2.2 (magicInfo_plan_keepsWT m info hm)]
            simp [magicKind, hm]
          · rw [if_pos hv] at h
            simp at h
      · have hp2 : planMatches commonPlan fs = false := by
          rwa [Bool.not_eq_true] at hp
        simp [runReads_fst, hp2] at h

theorem restore_no_magic_none (fs : List FileVal) (w0 : WorkUnit)
    (pm10 : Pm1Handle)
    (hu : ∀ m v rest, fs = FileVal.vLong m :: FileVal.vLong v :: rest →
      magicInfo m = none) :
    ((restoreWorkUnitFromFile (some fs) w0 pm10).2.1).work_type =
      WorkType.WORK_NONE := by
  rcases fs with _ | ⟨f1, fs⟩
  · rfl
  cases f1 <;> try rfl
  case vLong m =>
    rcases fs with _ | ⟨f2, fs⟩
    · rfl
    cases f2 <;> try rfl
    case vLong v =>
      have hm := hu m v fs rfl
      simp only [restoreWorkUnitFromFile]
      unfold restoreDispatch
      simp only [runReads_fst]
      try simp only [hm]
      by_cases hp : planMatches commonPlan fs = true
      · simp only [hp]
        rw [if_neg (by decide : ¬(true = false))]
        try dsimp only
        rw [runReads_work_type commonPlan commonPlan_keepsWT]
      · have hp2 : planMatches commonPlan fs = false := by
          rwa [Bool.not_eq_true] at hp
        simp only [hp2]
        rw [if_pos trivial]
        try dsimp only
        rw [runReads_work_type commonPlan commonPlan_keepsWT]

/-! ## Sample streams used by witnesses and counterexamples -/

/-- A complete LL checkpoint stream (magic, version 1, header, two counters). -/
def llSample : List FileVal :=
  [FileVal.vLong LL_MAGICNUM, FileVal.vLong 1, FileVal.vDouble 1, FileVal.vLong 2,
   FileVal.vLong 86243, FileVal.vSLong (-1), FileVal.vHeader, FileVal.vLong 0,
   FileVal.vLong 5000]

/-- A well-formed P-1 stream after magic and version, through `Done` state. -/
def pm1GoodTail : List FileVal :=
  [FileVal.vDouble 1, FileVal.vLong 2, FileVal.vLong 5, FileVal.vSLong (-1),
   FileVal.vHeader, FileVal.vLong 2, FileVal.vLongLong 100, FileVal.vLongLong 100,
   FileVal.vLongLong 3000, FileVal.vLongLong 500, FileVal.vLongLong 3000,
   FileVal.vLongLong 7, FileVal.vLong 30, FileVal.vLong 4]

/-- A P-1 stream truncated inside the variant sequence: its stage field (9) is
read, then the `B_done` read fails at end of stream. -/
def truncPm1Sample : List FileVal :=
  [FileVal.vLong PM1_MAGICNUM, FileVal.vLong 2, FileVal.vDouble 7, FileVal.vLong 3,
   FileVal.vLong 5, FileVal.vSLong (-1), FileVal.vHeader, FileVal.vLong 9]

/-- A trial-factoring stream: magic, required version 1, common header, then an
arbitrary remainder (nothing further is read). -/
def factorStream (k : Rat) (b n : Nat) (c : Int) (rest : List FileVal) :
    List FileVal :=
  FileVal.vLong FACTOR_MAGICNUM :: FileVal.vLong 1 :: FileVal.vDouble k ::
    FileVal.vLong b :: FileVal.vLong n :: FileVal.vSLong c :: FileVal.vHeader :: rest

/-! ## Claim theorems -/

/-- C2: evaluation of the classifier at the claim's decisive inputs.  The code
rejects `"p123_45.bu99"`: its suffix test `strcmp(filename+i, ".bu") == 0`
demands the remainder be exactly `".bu"`, so a backup-generation digit run
after `".bu"` is never accepted (the digit loop after the compare is dead
code), contradicting the claimed grammar, the code's own comment and its
accepted example.  The name `"p__123"` shows the digit groups may be empty
(matching the code's comment `[mpef][0-9]*(_[0-9]*)(_[0-9]*)`, not the
claim's `digit+`). -/
theorem c2_classifier_eval :
    isTempFileName "p123_45.bu99" = false ∧
    isTempFileName "p123_45.bu" = true ∧
    isTempFileName "p13_3" = true ∧
    isTempFileName "x123" = false ∧
    isTempFileName "p1_2_3_4" = false ∧
    isTempFileName "p" = false ∧
    isTempFileName "p__123" = true :=
  ⟨rfl, rfl, rfl, rfl, rfl, rfl, rfl⟩

/-- C3: a decode can only succeed when the version field equals the single
required constant of the recognized magic number (ECM 1, P-1 2, LL 1, PRP 4,
TrialFactor 1); in particular a P-1 stream with version 1 fails no matter what
follows. -/
theorem c3_version_gate :
    (∀ (m v : Nat) (rest : List FileVal) (w0 : WorkUnit) (pm10 : Pm1Handle),
        (restoreWorkUnitFromFile
            (some (FileVal.vLong m :: FileVal.vLong v :: rest)) w0 pm10).1 = true →
        requiredVersion m = some v) ∧
    (∀ (rest : List FileVal) (w0 : WorkUnit) (pm10 : Pm1Handle),
        (restoreWorkUnitFromFile
            (some (FileVal.vLong PM1_MAGICNUM :: FileVal.vLong 1 :: rest)) w0
            pm10).1 = false) ∧
    requiredVersion ECM_MAGICNUM = some 1 ∧ requiredVersion PM1_MAGICNUM = some 2 ∧
    requiredVersion LL_MAGICNUM = some 1 ∧ requiredVersion PRP_MAGICNUM = some 4 ∧
    requiredVersion FACTOR_MAGICNUM = some 1 := by
  have main : ∀ (m v : Nat) (rest : List FileVal) (w0 : WorkUnit) (pm10 : Pm1Handle),
      (restoreWorkUnitFromFile
          (some (FileVal.vLong m :: FileVal.vLong v :: rest)) w0 pm10).1 = true →
      requiredVersion m = some v := by
    intro m v rest w0 pm10 h
    have hc := restore_success_complete _ _ _ h
    rw [completeFileB] at hc
    rcases hm : magicInfo m with _ | info
    · rw [hm] at hc; simp at hc
    · rw [hm] at hc
      simp only [Bool.and_eq_true, beq_iff_eq] at hc
      unfold requiredVersion
      rw [hm]
      simp [hc.2.1]
  refine ⟨main, ?_, rfl, rfl, rfl, rfl, rfl⟩
  intro rest w0 pm10
  cases hx : (restoreWorkUnitFromFile
      (some (FileVal.vLong PM1_MAGICNUM :: FileVal.vLong 1 :: rest)) w0 pm10).1
  · rfl
  · have h2 := main _ _ _ _ _ hx
    exact absurd h2 (by decide)

/-- Witness for C3: a complete LL decode succeeds and indeed carries the
required version 1; the well-formed P-1 tail decodes to failure under
version 1. -/
theorem c3_version_gate_witness :
    requiredVersion LL_MAGICNUM = some 1 ∧
    (restoreWorkUnitFromFile
        (some (FileVal.vLong PM1_MAGICNUM :: FileVal.vLong 1 :: pm1GoodTail))
        {} {}).1 = false :=
  ⟨c3_version_gate.1 LL_MAGICNUM 1 (llSample.drop 2) {} {} (by decide),
   c3_version_gate.2.1 pm1GoodTail {} {}⟩

/-- C10: whenever the decoder returns success, the work type is the unique
kind mapped from the recognized leading magic number -- one of `WORK_ECM`,
`WORK_PMINUS1`, `WORK_TEST`, `WORK_PRP`, `WORK_FACTOR`, never `WORK_NONE`;
and when the stream carries no recognized magic number, the `WORK_NONE` set on
entry survives. -/
theorem c10_work_type_invariant :
    (∀ (fs : List FileVal) (w0 : WorkUnit) (pm10 : Pm1Handle),
        (restoreWorkUnitFromFile (some fs) w0 pm10).1 = true →
        ∃ m v rest, fs = FileVal.vLong m :: FileVal.vLong v :: rest ∧
          magicKind m =
            some ((restoreWorkUnitFromFile (some fs) w0 pm10).2.1).work_type ∧
          ((restoreWorkUnitFromFile (some fs) w0 pm10).2.1).work_type ≠
            WorkType.WORK_NONE ∧
          (((restoreWorkUnitFromFile (some fs) w0 pm10).2.1).work_type =
              WorkType.WORK_ECM ∨
            ((restoreWorkUnitFromFile (some fs) w0 pm10).2.1).work_type =
              WorkType.WORK_PMINUS1 ∨
            ((restoreWorkUnitFromFile (some fs) w0 pm10).2.1).work_type =
              WorkType.WORK_TEST ∨
            ((restoreWorkUnitFromFile (some fs) w0 pm10).2.1).work_type =
              WorkType.WORK_PRP ∨
            ((restoreWorkUnitFromFile (some fs) w0 pm10).2.1).work_type =
              WorkType.WORK_FACTOR)) ∧
    (∀ (fs : List FileVal) (w0 : WorkUnit) (pm10 : Pm1Handle),
        (∀ m v rest, fs = FileVal.vLong m :: FileVal.vLong v :: rest →
          magicInfo m = none) →
        ((restoreWorkUnitFromFile (some fs) w0 pm10).2.1).work_type =
          WorkType.WORK_NONE) := by
  constructor
  · intro fs w0 pm10 h
    obtain ⟨m, v, rest, hfs, hk⟩ := restore_success_kind fs w0 pm10 h
    obtain ⟨hmem, hne⟩ := magicKind_cases m _ hk
    exact ⟨m, v, rest, hfs, hk, hne, hmem⟩
  · exact restore_no_magic_none

/-- Witness for C10: the complete LL stream decodes successfully to
`WORK_TEST`, the kind of its magic number; a stream with an unrecognized
leading magic number leaves `WORK_NONE`. -/
theorem c10_work_type_invariant_witness :
    (∃ m v rest, llSample = FileVal.vLong m :: FileVal.vLong v :: rest ∧
        magicKind m =
          some ((restoreWorkUnitFromFile (some llSample) {} {}).2.1).work_type ∧
        ((restoreWorkUnitFromFile (some llSample) {} {}).2.1).work_type ≠
          WorkType.WORK_NONE ∧
        (((restoreWorkUnitFromFile (some llSample) {} {}).2.1).work_type =
            WorkType.WORK_ECM ∨
          ((restoreWorkUnitFromFile (some llSample) {} {}).2.1).work_type =
            WorkType.WORK_PMINUS1 ∨
          ((restoreWorkUnitFromFile (some llSample) {} {}).2.1).work_type =
            WorkType.WORK_TEST ∨
          ((restoreWorkUnitFromFile (some llSample) {} {}).2.1).work_type =
            WorkType.WORK_PRP ∨
          ((restoreWorkUnitFromFile (some llSample) {} {}).2.1).work_type =
            WorkType.WORK_FACTOR)) ∧
    ((restoreWorkUnitFromFile (some [FileVal.vLong 99, FileVal.vLong 1]) {}
        {}).2.1).work_type = WorkType.WORK_NONE :=
  ⟨c10_work_type_invariant.1 llSample {} {} (by decide),
   c10_work_type_invariant.2 [FileVal.vLong 99, FileVal.vLong 1] {} {}
     (by
       intro m v rest h
       have hm : 99 = m := by
         have := congrArg (fun l => List.head? l) h
         simpa using this
       subst hm
       rfl)⟩

/-- C1 counterexample: decoding the truncated P-1 stream into reused records
returns failure, but the output records do hold values written by the aborted
decode (`k = 7` from its header, `stage = 9` from its variant sequence) and
retain a value from the prior decode in a field the aborted decode never
reached (`B = 111`). -/
theorem c1_counterexample :
    (restoreWorkUnitFromFile (some truncPm1Sample) {} { B := 111 }).1 = false ∧
    ((restoreWorkUnitFromFile (some truncPm1Sample) {} { B := 111 }).2.1).k = 7 ∧
    ((restoreWorkUnitFromFile (some truncPm1Sample) {} { B := 111 }).2.2).stage = 9 ∧
    ((restoreWorkUnitFromFile (some truncPm1Sample) {} { B := 111 }).2.2).B = 111 :=
  ⟨rfl, rfl, rfl, rfl⟩

/-- C1 amended: whenever any field read fails partway, the decode returns
failure (success requires the complete field sequence), and the scanner never
exposes the partially populated records: on a failed decode the emitted text
is the fixed parse-error line, regardless of what the records contain. -/
theorem c1_all_or_nothing :
    (∀ (fs : List FileVal) (w0 : WorkUnit) (pm10 : Pm1Handle),
        (restoreWorkUnitFromFile (some fs) w0 pm10).1 = true →
        completeFileB fs = true) ∧
    (∀ (file : Option (List FileVal)) (name : String) (w0 : WorkUnit)
        (pm10 : Pm1Handle),
        (restoreWorkUnitFromFile file w0 pm10).1 = false →
        fileOutcomeWith file name w0 pm10 = BACKUP_PARSE_ERROR name) := by
  refine ⟨restore_success_complete, ?_⟩
  intro file name w0 pm10 h
  simp [fileOutcomeWith, h]

/-- Witness for C1: the complete LL stream satisfies the completeness check
its successful decode promises, and the truncated P-1 stream's outcome is the
parse-error line. -/
theorem c1_all_or_nothing_witness :
    completeFileB llSample = true ∧
    fileOutcomeWith (some truncPm1Sample) "p5" {} { B := 111 } =
      BACKUP_PARSE_ERROR "p5" :=
  ⟨c1_all_or_nothing.1 llSample {} {} (by decide),
   c1_all_or_nothing.2 (some truncPm1Sample) "p5" {} { B := 111 } (by decide)⟩

/-- C9: any trial-factoring stream with the required version 1 and a
well-formed common header decodes successfully (no crash in the model: the
decoder is a total function), and the scanner renders it as the explicit
`UNKNOWN` outcome, never a field dump. -/
theorem c9_trial_factor (name : String) (k : Rat) (b n : Nat) (c : Int)
    (rest : List FileVal) (w0 : WorkUnit) (pm10 : Pm1Handle) :
    (restoreWorkUnitFromFile (some (factorStream k b n c rest)) w0 pm10).1 =
      true ∧
    fileOutcomeWith (some (factorStream k b n c rest)) name w0 pm10 =
      BACKUP_STATUS name "UNKNOWN" := by
  constructor
  · simp [factorStream, restoreWorkUnitFromFile, runReads, commonPlan,
      restoreDispatch, magicInfo, factorPlan, FACTOR_MAGICNUM, ECM_MAGICNUM,
      PM1_MAGICNUM, LL_MAGICNUM, PRP_MAGICNUM]
  · simp [factorStream, fileOutcomeWith, restoreWorkUnitFromFile, runReads,
      commonPlan, restoreDispatch, magicInfo, factorPlan, statusOf,
      FACTOR_MAGICNUM, ECM_MAGICNUM, PM1_MAGICNUM, LL_MAGICNUM, PRP_MAGICNUM]

theorem occursIn_not_of_not_mem (pat s : String) (c : Char) (hc : c ∈ pat.data)
    (hs : c ∉ s.data) : ¬ occursIn pat s := by
  rintro ⟨pre, post, h⟩
  apply hs
  rw [h]
  exact List.mem_append.mpr (Or.inl (List.mem_append.mpr (Or.inr hc)))

theorem append_data_ne_nil (s t : String) (h : s.data ≠ []) :
    (s ++ t).data ≠ [] := by
  rw [strData_append]
  intro h2
  exact h (List.append_eq_nil.mp h2).1

theorem ne_empty_of_data_ne_nil (s : String) (h : s.data ≠ []) : ¬(s = "") := by
  intro hEq
  rw [hEq] at h
  exact h rfl

theorem natStr_no_comma (n : Nat) (c : Char) (hc : c ∈ (natStr n).data) :
    c ≠ ',' := by
  obtain ⟨d, hd⟩ := natStr_mem n c hc
  rw [hd]
  exact digitChar_ne_comma d

theorem natStr_no_upperE (n : Nat) (c : Char) (hc : c ∈ (natStr n).data) :
    c ≠ 'E' := by
  obtain ⟨d, hd⟩ := natStr_mem n c hc
  rw [hd]
  exact digitChar_ne_upperE d

/-- The P-1 `Done` branch of the renderer, spelled out. -/
theorem statusOf_pm1_done (w : WorkUnit) (pm1 : Pm1Handle)
    (hw : w.work_type = WorkType.WORK_PMINUS1) (hs : pm1.stage = 2) :
    statusOf w pm1 =
      "P-1 | B1=" ++ natStr pm1.B ++
        (if pm1.B < pm1.C then
           ",B2=" ++ natStr pm1.C ++
             (if 2 ≤ pm1.E then ",E=" ++ natStr pm1.E else "")
         else "") ++ " complete" := by
  have hstat : statusOf w pm1 =
      if ("P-1 | B1=" ++ natStr pm1.B ++
            (if pm1.B < pm1.C then
               ",B2=" ++ natStr pm1.C ++
                 (if 2 ≤ pm1.E then ",E=" ++ natStr pm1.E else "")
             else "") ++ " complete") = "" then "UNKNOWN"
      else
        "P-1 | B1=" ++ natStr pm1.B ++
          (if pm1.B < pm1.C then
             ",B2=" ++ natStr pm1.C ++
               (if 2 ≤ pm1.E then ",E=" ++ natStr pm1.E else "")
           else "") ++ " complete" := by
    unfold statusOf
    rw [hw, hs]
    rfl
  rw [hstat,
    if_neg (ne_empty_of_data_ne_nil _
      (append_data_ne_nil _ _ (append_data_ne_nil _ _
        (append_data_ne_nil _ _ (by decide)))))]

/-- Modelled from the claim: the `Done` line is
`"P-1 | B1=<bound1>[,B2=<bound2>[,E=<relations>]] complete"`, with the `B2`
suffix present iff `bound2 > bound1` and, within it, the `E` suffix present
iff `relations ≥ 2`. -/
def pm1DoneSpecLine (bound1 bound2 relations : Nat) : String :=
  "P-1 | B1=" ++ natStr bound1 ++
    (if bound1 < bound2 then
       ",B2=" ++ natStr bound2 ++
         (if 2 ≤ relations then ",E=" ++ natStr relations else "")
     else "") ++ " complete"

/-- C6: the rendered line of a P-1 record in stage `Done` follows the claimed
template, the `,B2=` suffix occurs in it iff `bound2 > bound1`, and (when it
does) the `,E=` suffix occurs iff `relations >= 2`. -/
theorem c6_pm1_done_render (w : WorkUnit) (pm1 : Pm1Handle)
    (hw : w.work_type = WorkType.WORK_PMINUS1) (hs : pm1.stage = 2) :
    statusOf w pm1 = pm1DoneSpecLine pm1.B pm1.C pm1.E ∧
    (occursIn ",B2=" (statusOf w pm1) ↔ pm1.B < pm1.C) ∧
    (pm1.B < pm1.C → (occursIn ",E=" (statusOf w pm1) ↔ 2 ≤ pm1.E)) := by
  have hline := statusOf_pm1_done w pm1 hw hs
  refine ⟨by rw [hline]; rfl, ?_, ?_⟩
  · by_cases hbc : pm1.B < pm1.C
    · rw [hline, if_pos hbc]
      refine iff_of_true ⟨("P-1 | B1=" ++ natStr pm1.B).data,
        (natStr pm1.C ++
          (if 2 ≤ pm1.E then ",E=" ++ natStr pm1.E else "") ++
          " complete").data, ?_⟩ hbc
      simp [strData_append, List.append_assoc]
    · rw [hline, if_neg hbc]
      refine iff_of_false (occursIn_not_of_not_mem _ _ ',' (by decide) ?_) hbc
      intro hmem
      simp only [strData_append, List.mem_append, or_assoc] at hmem
      rcases hmem with h | h | h | h
      · exact absurd h (by decide)
      · exact natStr_no_comma _ _ h rfl
      · exact absurd h (by decide)
      · exact absurd h (by decide)
  · intro hbc
    rw [hline, if_pos hbc]
    by_cases hE : 2 ≤ pm1.E
    · rw [if_pos hE]
      refine iff_of_true ⟨("P-1 | B1=" ++ natStr pm1.B ++
        (",B2=" ++ natStr pm1.C)).data,
        (natStr pm1.E ++ " complete").data, ?_⟩ hE
      simp [strData_append, List.append_assoc]
    · rw [if_neg hE]
      refine iff_of_false (occursIn_not_of_not_mem _ _ 'E' (by decide) ?_) hE
      intro hmem
      simp only [strData_append, List.mem_append, or_assoc] at hmem
      rcases hmem with h | h | h | h | h | h
      · exact absurd h (by decide)
      · exact natStr_no_upperE _ _ h rfl
      · exact absurd h (by decide)
      · exact natStr_no_upperE _ _ h rfl
      · exact absurd h (by decide)
      · exact absurd h (by decide)

/-- Witness for C6: concrete `Done` records with `bound2 > bound1` and
`relations >= 2`. -/
theorem c6_pm1_done_render_witness :
    statusOf { work_type := WorkType.WORK_PMINUS1 }
        { stage := 2, B := 100, C := 3000, E := 4 } =
      pm1DoneSpecLine 100 3000 4 ∧
    occursIn ",B2="
      (statusOf { work_type := WorkType.WORK_PMINUS1 }
        { stage := 2, B := 100, C := 3000, E := 4 }) :=
  ⟨(c6_pm1_done_render _ _ rfl rfl).1,
   ((c6_pm1_done_render { work_type := WorkType.WORK_PMINUS1 }
       { stage := 2, B := 100, C := 3000, E := 4 } rfl rfl).2.1).mpr
     (by decide)⟩

/-! ## Scanner lemmas -/

theorem collectFiles_eq (l : List DirEnt) :
    ∀ n, collectFiles l n = ((l.filter goodEntry).map DirEnt.d_name).take n := by
  induction l with
  | nil => intro n; cases n <;> rfl
  | cons e rest ih =>
    intro n
    cases n with
    | zero => rfl
    | succ m =>
      by_cases hg : goodEntry e
      · simp [collectFiles, hg, List.filter_cons, ih]
      · simp [collectFiles, hg, List.filter_cons, ih]

/-- A classifier-accepted regular name of length 100, which the scanner
nevertheless drops (`strlen(dp->d_name) < 100` fails). -/
def longTempName : String := "p" ++ String.mk (List.replicate 99 '1')

/-- C4 counterexample: a regular directory entry whose name the classifier
accepts, yet the scanner collects nothing and decodes nothing, because the
name is not shorter than 100 characters. -/
theorem c4_counterexample :
    isTempFileName longTempName = true ∧
    (DirEnt.mk longTempName true).regular = true ∧
    restoreStatusMessage (fun _ => none) [DirEnt.mk longTempName true] = [] ∧
    collectFiles [DirEnt.mk longTempName true] MAX_BACKUP_FILES = [] := by
  refine ⟨by decide, rfl, ?_, ?_⟩ <;> rfl

/-- C4 amended: the scanner considers only regular entries whose
classifier-accepted names are shorter than 100 characters, collects the first
`MAX_BACKUP_FILES` of them in discovery order, sorts that capped set
lexicographically, and emits one decode outcome per candidate in sorted
order; hence with at least 100 qualifying names exactly 100 are decoded. -/
theorem c4_scanner_plan (fsys : String → Option (List FileVal))
    (listing : List DirEnt) :
    restoreStatusMessage fsys listing =
      (List.insertionSort (fun a b : String => a ≤ b)
          (collectFiles listing MAX_BACKUP_FILES)).map (fileOutcome fsys) ∧
    collectFiles listing MAX_BACKUP_FILES =
      ((listing.filter goodEntry).map DirEnt.d_name).take MAX_BACKUP_FILES ∧
    List.Sorted (fun a b : String => a ≤ b)
      (List.insertionSort (fun a b : String => a ≤ b)
        (collectFiles listing MAX_BACKUP_FILES)) ∧
    List.Perm
      (List.insertionSort (fun a b : String => a ≤ b)
        (collectFiles listing MAX_BACKUP_FILES))
      (((listing.filter goodEntry).map DirEnt.d_name).take MAX_BACKUP_FILES) ∧
    (restoreStatusMessage fsys listing).length =
      min MAX_BACKUP_FILES (listing.filter goodEntry).length := by
  refine ⟨rfl, collectFiles_eq listing MAX_BACKUP_FILES,
    List.sorted_insertionSort _ _, ?_, ?_⟩
  · rw [collectFiles_eq]
    exact List.perm_insertionSort _ _
  · show ((List.insertionSort _ (collectFiles listing MAX_BACKUP_FILES)).map
      (fileOutcome fsys)).length = _
    rw [List.length_map, (List.perm_insertionSort _ _).length_eq,
      collectFiles_eq, List.length_take, List.length_map]

/-! ## Renderer / estimator lemmas -/

/-- A queue item qualifies for the probability count (`ll_and_prp_cnt`). -/
def isQual (u : QUnit) : Bool :=
  if u.work_type = WorkType.WORK_TEST then true
  else if u.work_type = WorkType.WORK_DBLCHK then true
  else if u.work_type = WorkType.WORK_PRP then true
  else false

/-- A queue item either does not count (`WORK_NONE` is skipped) or keeps the
`mersennes` flag. -/
def qMersOk (u : QUnit) : Bool :=
  if u.work_type = WorkType.WORK_NONE then true else mersForm u

theorem processUnit_mers (env : REnv) (buflen lpw tnum : Nat) (wa : WAcc)
    (u : QUnit) :
    (processUnit env buflen lpw tnum wa u).g.mers = (wa.g.mers && qMersOk u) := by
  unfold processUnit qMersOk
  split_ifs with h1 h2 h3 <;> simp_all

theorem processUnit_cnt (env : REnv) (buflen lpw tnum : Nat) (wa : WAcc)
    (u : QUnit) :
    (processUnit env buflen lpw tnum wa u).g.cnt =
      wa.g.cnt + (if isQual u then 1 else 0) := by
  unfold processUnit isQual
  split_ifs <;> simp_all

theorem workerLoop_mers (env : REnv) (buflen lpw tnum : Nat) :
    ∀ (us : List QUnit) (wa : WAcc),
      (workerLoop env buflen lpw tnum wa us).g.mers =
        (wa.g.mers && us.all qMersOk) := by
  intro us
  induction us with
  | nil => intro wa; simp [workerLoop]
  | cons u rest ih =>
    intro wa
    show (workerLoop env buflen lpw tnum
        (processUnit env buflen lpw tnum wa u) rest).g.mers = _
    rw [ih, processUnit_mers]
    simp [Bool.and_assoc]

theorem workerLoop_cnt (env : REnv) (buflen lpw tnum : Nat) :
    ∀ (us : List QUnit) (wa : WAcc),
      (workerLoop env buflen lpw tnum wa us).g.cnt =
        wa.g.cnt + us.countP isQual := by
  intro us
  induction us with
  | nil => intro wa; simp [workerLoop]
  | cons u rest ih =>
    intro wa
    show (workerLoop env buflen lpw tnum
        (processUnit env buflen lpw tnum wa u) rest).g.cnt = _
    rw [ih, processUnit_cnt, List.countP_cons]
    by_cases h : isQual u
    · simp [h]
      omega
    · simp [h]

theorem runWorker_mers (env : REnv) (buflen lpw tnum : Nat) (g : GAcc)
    (us : List QUnit) :
    (runWorker env buflen lpw tnum g us).mers = (g.mers && us.all qMersOk) := by
  unfold runWorker workerInit
  dsimp only
  split_ifs <;> simp [workerLoop_mers]

theorem runWorker_cnt (env : REnv) (buflen lpw tnum : Nat) (g : GAcc)
    (us : List QUnit) :
    (runWorker env buflen lpw tnum g us).cnt = g.cnt + us.countP isQual := by
  unfold runWorker workerInit
  dsimp only
  split_ifs <;> simp [workerLoop_cnt]

theorem workersFold_mers (env : REnv) (buflen lpw : Nat) :
    ∀ (l : List (Nat × List QUnit)) (g : GAcc),
      ((l.foldl (fun g p => runWorker env buflen lpw p.1 g p.2) g)).mers =
        (g.mers && l.all fun p => p.2.all qMersOk) := by
  intro l
  induction l with
  | nil => intro g; simp
  | cons p rest ih =>
    intro g
    show ((rest.foldl _ (runWorker env buflen lpw p.1 g p.2))).mers = _
    rw [ih, runWorker_mers]
    simp [Bool.and_assoc]

theorem workersFold_cnt (env : REnv) (buflen lpw : Nat) :
    ∀ (l : List (Nat × List QUnit)) (g : GAcc),
      ((l.foldl (fun g p => runWorker env buflen lpw p.1 g p.2) g)).cnt =
        g.cnt + (l.map fun p => p.2.countP isQual).sum := by
  intro l
  induction l with
  | nil => intro g; simp
  | cons p rest ih =>
    intro g
    show ((rest.foldl _ (runWorker env buflen lpw p.1 g p.2))).cnt = _
    rw [ih, runWorker_cnt]
    simp [Nat.add_assoc]

theorem enumFrom_all_snd {α : Type} (f : List α → Bool) :
    ∀ (l : List (List α)) (i : Nat),
      ((List.enumFrom i l).all fun p => f p.2) = l.all f := by
  intro l
  induction l with
  | nil => intro i; rfl
  | cons x rest ih => intro i; simp [List.enumFrom, List.all_cons, ih]

theorem enumFrom_map_snd_sum (f : List QUnit → Nat) :
    ∀ (l : List (List QUnit)) (i : Nat),
      ((List.enumFrom i l).map fun p => f p.2).sum = (l.map f).sum := by
  intro l
  induction l with
  | nil => intro i; rfl
  | cons x rest ih => intro i; simp [List.enumFrom, ih]

theorem rangeAccum_mers (env : REnv) (buflen : Nat) :
    (rangeAccum env buflen).mers = env.units.all fun us => us.all qMersOk := by
  unfold rangeAccum
  rw [workersFold_mers]
  show (true && (List.enumFrom 0 env.units).all fun p => p.2.all qMersOk) = _
  rw [Bool.true_and, enumFrom_all_snd (fun us => us.all qMersOk) env.units 0]

theorem rangeAccum_cnt (env : REnv) (buflen : Nat) :
    (rangeAccum env buflen).cnt =
      (env.units.map fun us => us.countP isQual).sum := by
  unfold rangeAccum
  rw [workersFold_cnt]
  show 0 + ((List.enumFrom 0 env.units).map fun p => p.2.countP isQual).sum = _
  rw [Nat.zero_add, enumFrom_map_snd_sum (fun us => us.countP isQual) env.units 0]

/-- Once the truncation condition holds and the flag is set, processing one
more queue item appends nothing and leaves flag, output and line count
unchanged (counters still accumulate). -/
theorem processUnit_frozen (env : REnv) (buflen lpw tnum : Nat) (wa : WAcc)
    (u : QUnit) (htr : wa.trunc = true)
    (hc : capLimit buflen ≤ wa.g.out.length ∨ lpw - 1 ≤ wa.linesOut) :
    (processUnit env buflen lpw tnum wa u).g.out = wa.g.out ∧
    (processUnit env buflen lpw tnum wa u).trunc = true ∧
    (processUnit env buflen lpw tnum wa u).linesOut = wa.linesOut := by
  unfold processUnit
  split_ifs with h1 h2 h3 <;> simp_all

theorem workerLoop_frozen (env : REnv) (buflen lpw tnum : Nat) :
    ∀ (us : List QUnit) (wa : WAcc), wa.trunc = true →
      (capLimit buflen ≤ wa.g.out.length ∨ lpw - 1 ≤ wa.linesOut) →
      (workerLoop env buflen lpw tnum wa us).g.out = wa.g.out ∧
      (workerLoop env buflen lpw tnum wa us).trunc = true := by
  intro us
  induction us with
  | nil => intro wa htr hc; exact ⟨rfl, htr⟩
  | cons u rest ih =>
    intro wa htr hc
    obtain ⟨ho, ht, hl⟩ := processUnit_frozen env buflen lpw tnum wa u htr hc
    have hc2 : capLimit buflen ≤
          (processUnit env buflen lpw tnum wa u).g.out.length ∨
        lpw - 1 ≤ (processUnit env buflen lpw tnum wa u).linesOut := by
      rw [ho, hl]; exact hc
    show ((workerLoop env buflen lpw tnum
        (processUnit env buflen lpw tnum wa u) rest)).g.out = _ ∧ _
    obtain ⟨ho2, ht2⟩ := ih (processUnit env buflen lpw tnum wa u) ht hc2
    exact ⟨by rw [ho2, ho], ht2⟩

def pmuSample : QUnit := { work_type := WorkType.WORK_PMINUS1, B1 := 1000 }
def llQualUnit : QUnit := { work_type := WorkType.WORK_TEST, n := 86243, sieve_depth := 70 }
def ecmOtherUnit : QUnit :=
  { work_type := WorkType.WORK_ECM, b := 3, c := 1, n := 100, curves_to_do := 2, B1 := 50000 }
def ctimeStub : Int → String := fun _ => "Thu Jan  1 00:00:01 1970\n"
def env5 : REnv :=
  { units := [[pmuSample, pmuSample, pmuSample], [pmuSample, pmuSample, pmuSample]],
    statusLines := some 6, ctime := ctimeStub, gwString := fun _ => "M7",
    workEstimate := fun _ _ => 1, invProbLL := fun _ => "42" }
def env7 : REnv :=
  { units := [[ecmOtherUnit]], ctime := ctimeStub, gwString := fun _ => "X",
    workEstimate := fun _ _ => 1, invProbLL := fun _ => "42" }
def env8 : REnv :=
  { units := [[llQualUnit, ecmOtherUnit]], ctime := ctimeStub, gwString := fun _ => "X",
    workEstimate := fun _ _ => 1, invProbLL := fun _ => "42" }

/-- C5 amended: truncation is per worker and sticky within one worker: once
the truncation condition holds and the flag is set, the rest of that worker's
queue appends nothing at all (so at most one `More...` marker per worker). -/
theorem c5_sticky_per_worker (env : REnv) (buflen lpw tnum : Nat) (wa : WAcc)
    (us : List QUnit) (htr : wa.trunc = true)
    (hc : capLimit buflen ≤ wa.g.out.length ∨ lpw - 1 ≤ wa.linesOut) :
    (workerLoop env buflen lpw tnum wa us).g.out = wa.g.out ∧
    (workerLoop env buflen lpw tnum wa us).trunc = true :=
  workerLoop_frozen env buflen lpw tnum us wa htr hc

def waFrozenSample : WAcc :=
  { g := { out := "x", cnt := 0, prob := 0, mers := true }, linesOut := 5,
    trunc := true, est := 0 }

/-- Witness for C5: with the flag set and the line limit reached, a further
queue item appends nothing. -/
theorem c5_sticky_per_worker_witness :
    (workerLoop env5 50 3 0 waFrozenSample [pmuSample]).g.out = "x" ∧
    (workerLoop env5 50 3 0 waFrozenSample [pmuSample]).trunc = true :=
  c5_sticky_per_worker env5 50 3 0 waFrozenSample [pmuSample] rfl
    (Or.inr (by decide))

set_option maxRecDepth 8000 in
/-- C5 counterexample: with two workers, each with three one-line work units
and a 50-byte buffer (`StatusLines = 6`), the render emits the `More...`
marker twice, emits the second worker's header and work line after the first
marker, and writes well past the provided length.  Truncation is neither
global, nor single, nor sticky across the call, and the buffer length is not
respected. -/
theorem c5_counterexample :
    countSubstr (rangeStatusMessage env5 50) "More...\n" = 2 ∧
    50 < (rangeStatusMessage env5 50).length ∧
    countSubstr (rangeStatusMessage env5 50) "[Worker thread #2]\n" = 1 := by
  refine ⟨?_, ?_, ?_⟩ <;> decide

/-- C7 amended: the probability report is selected by the count of qualifying
items (`WORK_TEST`, `WORK_DBLCHK`, `WORK_PRP`): one yields the singular
sentence, more than one the "one of N" sentence, zero yields no probability
sentence at all; the "No work queued up." line is a per-worker line emitted
exactly when that worker's accumulated time estimate is zero and its output
was not truncated. -/
theorem c7_report_selection (env : REnv) (buflen : Nat) :
    (rangeAccum env buflen).cnt =
      (env.units.map fun us => us.countP isQual).sum ∧
    (∀ (mers : Bool) (prob : Rat), probSentence env 0 mers prob = "") ∧
    (∀ (mers : Bool) (prob : Rat),
      probSentence env 1 mers prob =
        "The chance that the exponent you are testing will yield a " ++
          (if mers then "Mersenne " else "") ++ "prime is about 1 in " ++
          env.invProbLL prob ++ ". ") ∧
    (∀ (cnt : Nat) (mers : Bool) (prob : Rat), 1 < cnt →
      probSentence env cnt mers prob =
        "The chance that one of the " ++ natStr cnt ++
          " exponents you are testing will yield a " ++
          (if mers then "Mersenne " else "") ++ "prime is about 1 in " ++
          env.invProbLL prob ++ ". ") ∧
    (∀ (lpw tnum : Nat) (g : GAcc) (us : List QUnit),
      ((workerLoop env buflen lpw tnum (workerInit env tnum g) us).est = 0 ∧
          (workerLoop env buflen lpw tnum (workerInit env tnum g) us).trunc =
            false →
        runWorker env buflen lpw tnum g us =
          { (workerLoop env buflen lpw tnum (workerInit env tnum g) us).g with
              out := (workerLoop env buflen lpw tnum
                  (workerInit env tnum g) us).g.out ++ STAT3 }) ∧
      (¬((workerLoop env buflen lpw tnum (workerInit env tnum g) us).est = 0 ∧
          (workerLoop env buflen lpw tnum (workerInit env tnum g) us).trunc =
            false) →
        runWorker env buflen lpw tnum g us =
          (workerLoop env buflen lpw tnum (workerInit env tnum g) us).g)) := by
  refine ⟨rangeAccum_cnt env buflen, fun mers prob => rfl, fun mers prob => rfl,
    ?_, ?_⟩
  · intro cnt mers prob h
    unfold probSentence
    rw [if_neg (by omega), if_pos h]
  · intro lpw tnum g us
    constructor
    · intro h
      unfold runWorker
      rw [if_pos h]
    · intro h
      unfold runWorker
      rw [if_neg h]

/-- Witness for C7: the "one of N" sentence at `N = 2`, and the `STAT3` line
appended for a worker with an empty queue (estimate zero, not truncated). -/
theorem c7_report_selection_witness :
    probSentence env7 2 false 0 =
      "The chance that one of the " ++ natStr 2 ++
        " exponents you are testing will yield a " ++
        (if false then "Mersenne " else "") ++ "prime is about 1 in " ++
        env7.invProbLL 0 ++ ". " ∧
    runWorker env7 2000 3 0 { out := "", cnt := 0, prob := 0, mers := true } [] =
      { (workerLoop env7 2000 3 0
          (workerInit env7 0 { out := "", cnt := 0, prob := 0, mers := true })
          []).g with
          out := (workerLoop env7 2000 3 0
              (workerInit env7 0 { out := "", cnt := 0, prob := 0, mers := true })
              []).g.out ++ STAT3 } :=
  ⟨(c7_report_selection env7 2000).2.2.2.1 2 false 0 (by decide),
   ((c7_report_selection env7 2000).2.2.2.2 3 0
       { out := "", cnt := 0, prob := 0, mers := true } []).1 ⟨rfl, rfl⟩⟩

set_option maxRecDepth 8000 in
/-- C7 counterexample: a queue holding one ECM item has zero qualifying items,
yet the rendered message is not the "No work queued up." text -- it lists the
ECM line and contains no "No work queued" at all. -/
theorem c7_counterexample :
    (env7.units.map fun us => us.countP isQual).sum = 0 ∧
    countSubstr (rangeStatusMessage env7 2000) "No work queued" = 0 ∧
    countSubstr (rangeStatusMessage env7 2000) "ECM" = 1 := by
  refine ⟨?_, ?_, ?_⟩ <;> decide

/-- Every qualifying item keeps the Mersenne wording. -/
def qualMersOk (u : QUnit) : Bool := !isQual u || mersForm u

/-- C8 amended: the `mersennes` flag that selects the wording is the
conjunction over every queued non-`WORK_NONE` item -- qualifying or not -- of
the Mersenne-form test, and the appended sentence uses exactly that flag. -/
theorem c8_mersennes_wording (env : REnv) (buflen : Nat) :
    (rangeAccum env buflen).mers = (env.units.all fun us => us.all qMersOk) ∧
    rangeStatusMessage env buflen =
      (rangeAccum env buflen).out ++
        probSentence env (rangeAccum env buflen).cnt
          (env.units.all fun us => us.all qMersOk)
          (rangeAccum env buflen).prob := by
  refine ⟨rangeAccum_mers env buflen, ?_⟩
  unfold rangeStatusMessage
  dsimp only
  rw [rangeAccum_mers]

set_option maxRecDepth 8000 in
/-- C8 counterexample: a queue with one Mersenne-form LL test (qualifying) and
one non-Mersenne ECM item (non-qualifying): every qualifying item is
Mersenne-form, yet the singular sentence is emitted with the plain "prime"
wording -- the non-qualifying ECM item changed the selection. -/
theorem c8_counterexample :
    (env8.units.all fun us => us.all qualMersOk) = true ∧
    (rangeAccum env8 2000).cnt = 1 ∧
    countSubstr (rangeStatusMessage env8 2000) "Mersenne" = 0 ∧
    countSubstr (rangeStatusMessage env8 2000) "prime is about" = 1 := by
  refine ⟨?_, ?_, ?_, ?_⟩ <;> decide

end Prime95
